import Mathlib

/-!
Verification of `src/MunkiServerUploader.py` (AutoPkgProcessors).

The processor is a linear flow: resolve the package path, optionally
generate and sanitize a pkginfo plist, query the munkiserver registry for
existence of (name, version), upload if absent, and post a Slack
notification on success.  The embedding below follows the Python source
line by line; Python exceptions are modelled explicitly (`PyErr`), the
external world (filesystem, subprocess outputs, HTTP response bodies,
Slack response) is an input record (`World`), and every external call the
flow performs is recorded as an `Event` in the run result.
-/

namespace MunkiServerUploader

/-- Characters of the regex class `[a-zA-Z0-9.-]` used at lines 97-98 of
the source (`re.sub('[^a-zA-Z0-9.-]+', '_', s)` keeps exactly these). -/
def goodChar (c : Char) : Bool :=
  ('a' ≤ c && c ≤ 'z') || ('A' ≤ c && c ≤ 'Z') || ('0' ≤ c && c ≤ '9')
    || c = '.' || c = '-'

/-- Model of `re.sub('[^a-zA-Z0-9.-]+', '_', ·)` over a character list.
The `+` quantifier makes each maximal run of characters outside the class
collapse to a single `_`; the Boolean flag records whether the previous
character was part of such a run (in which case further run characters
are consumed without emitting another `_`). -/
def subAux : Bool → List Char → List Char
  | _, [] => []
  | prevBad, c :: cs =>
    if goodChar c then c :: subAux false cs
    else if prevBad then subAux true cs
    else '_' :: subAux true cs

/-- `re.sub('[^a-zA-Z0-9.-]+', '_', s)` from lines 97-98. -/
def reSub (s : String) : String :=
  ⟨subAux false s.data⟩

/-- Python exceptions that the source can raise. -/
inductive PyErr where
  | keyError
  | typeError
  | jsonError
  | plistError
deriving DecidableEq, Repr

/-- Values stored in the pkginfo plist read by `plistlib.readPlist`. -/
inductive PVal where
  | str (s : String)
  | int (n : Int)
  | boolv (b : Bool)
deriving DecidableEq, Repr

/-- A parsed plist: the dictionary `plistlib.readPlist` returns. -/
def Plist := List (String × PVal)

/-- Python dict read `d[k]`: `KeyError` when the key is absent. -/
def dictGet (d : Plist) (k : String) : Except PyErr PVal :=
  match List.lookup k d with
  | some v => Except.ok v
  | none => Except.error PyErr.keyError

/-- Python dict assignment `d[k] = v`: replaces the binding if present,
appends it otherwise. -/
def dictSet (d : Plist) (k : String) (v : PVal) : Plist :=
  match d with
  | [] => [(k, v)]
  | (k', v') :: rest =>
    if k' = k then (k, v) :: rest else (k', v') :: dictSet rest k v

/-- `re.sub(…, …, v)` applied to a plist value: Python's `re.sub`
requires a string argument and raises `TypeError` otherwise. -/
def pySub (v : PVal) : Except PyErr PVal :=
  match v with
  | PVal.str s => Except.ok (PVal.str (reSub s))
  | _ => Except.error PyErr.typeError

/-- Lines 96-99 of `make_pkg_info`: read the generated plist, replace the
`name` and `version` fields by their sanitized forms, write it back.
Returns the record persisted to the pkginfo file, or the exception. -/
def sanitizePlist (plist : Plist) : Except PyErr Plist :=
  match dictGet plist "name" with
  | Except.error e => Except.error e
  | Except.ok nv =>
    match pySub nv with
    | Except.error e => Except.error e
    | Except.ok nv' =>
      let p1 := dictSet plist "name" nv'
      match dictGet p1 "version" with
      | Except.error e => Except.error e
      | Except.ok vv =>
        match pySub vv with
        | Except.error e => Except.error e
        | Except.ok vv' => Except.ok (dictSet p1 "version" vv')

/-- JSON values as `json.loads` produces them (and as the Slack client
returns them). -/
inductive JVal where
  | jbool (b : Bool)
  | jstr (s : String)
  | jnull
  | jobj (fields : List (String × JVal))

/-- `json.loads(body)`: `none` stands for a body that is not parseable
JSON, in which case Python raises a decode error. -/
def jsonLoads : Option JVal → Except PyErr JVal
  | none => Except.error PyErr.jsonError
  | some v => Except.ok v

/-- Python subscription `resp[k]` on a JSON value: `KeyError` when the
key is missing from an object, `TypeError` when the value is not an
object at all. -/
def getItem (v : JVal) (k : String) : Except PyErr JVal :=
  match v with
  | JVal.jobj fields =>
    match List.lookup k fields with
    | some w => Except.ok w
    | none => Except.error PyErr.keyError
  | _ => Except.error PyErr.typeError

/-- Python truthiness of a JSON value (`if response["exists"]:`). -/
def truthy : JVal → Bool
  | JVal.jbool b => b
  | JVal.jstr s => s ≠ ""
  | JVal.jnull => false
  | JVal.jobj fields => !fields.isEmpty

/-- Python `"…" == v` between a JSON value and a string literal: true
exactly when the value is that string (`response["type"] == "success"`). -/
def isSuccessType : JVal → Bool
  | JVal.jstr s => s = "success"
  | _ => false

/-- Python `s + v` where `s` is a `str` and `v` a decoded JSON value:
succeeds only when `v` is itself a string, otherwise `TypeError`.
Used for `"Failed to send Slack notification: " + result` (line 107),
where `result` is a dict, and for the output lines built from
`response['message']` / `response['edit_url']`. -/
def strConcatPy (s : String) (v : JVal) : Except PyErr String :=
  match v with
  | JVal.jstr t => Except.ok (s ++ t)
  | _ => Except.error PyErr.typeError

/-- Truthiness of an optional string environment value (`None` or `""`
are falsy). -/
def strTruthy : Option String → Bool
  | none => false
  | some s => s ≠ ""

/-- The processor environment `self.env`, after AutoPkg has filled in the
declared input-variable defaults.  `none` models a `None` value (an
unset environment variable behind the default); `pkginfo_file = none`
models the key being absent altogether, since that input has no
default. -/
structure Env where
  api_url : Option String
  api_key : Option String
  unit : String
  package_file : Option String
  pathname : Option String
  pkginfo_file : Option String
  pkginfo_name : Option String
  pkginfo_displayname : Option String
  pkginfo_destinationpath : Option String
  curl_path : String
  slack_api_token : Option String

/-- External calls the flow performs, in order. -/
inductive Event where
  | runMakepkginfo (args : List String)
  | httpGet (cmd : List String)
  | httpPost (cmd : List String)
  | slackCall (message : String)
deriving DecidableEq, Repr

/-- How a run of `main` ends: a normal `return`, or an uncaught Python
exception propagating out of the processor. -/
inductive Outcome where
  | returned
  | crashed (e : PyErr)
deriving DecidableEq, Repr

/-- Observable result of one run: the external calls performed, the
`self.output` lines emitted, and how the run ended. -/
structure RunResult where
  events : List Event
  outputs : List String
  outcome : Outcome

/-- The external world a run interacts with: which paths exist, the
parsed content `makepkginfo` produces (`none` = `readPlist` fails), the
parsed content of a caller-supplied pkginfo file, the two curl response
bodies, and the Slack API response. -/
structure World where
  fileExists : String → Bool
  generatedPlist : Option Plist
  suppliedPlist : Option Plist
  existsBody : Option JVal
  uploadBody : Option JVal
  slackResp : JVal

/-- Diagnostic emitted by both bare `except` blocks (lines 144-145 and
167-168). -/
def configErrMsg : String :=
  "Unable to construct curl command.  Have you set the MUNKISERVER_API_URL, MUNKISERVER_API_KEY, and MUNKISERVER_UNIT environment variables?"

/-- Fixed first part of the Slack message (line 178). -/
def slackMsgHead : String :=
  "A new package has been uploaded to Staging.  Please check the settings, test it, and put it into production:  "

/-- `send_slack_notification` (lines 101-107): posts the message (the
`api_call` is the recorded event), then checks `result["ok"]`.  On a
falsy `ok` it evaluates `"Failed to send Slack notification: " + result`
— a `str`/`dict` concatenation — before it can output anything.
Returns (events, outputs, uncaught exception if any). -/
def send_slack_notification (slackResp : JVal) (message : String) :
    List Event × List String × Option PyErr :=
  let events := [Event.slackCall message]
  match getItem slackResp "ok" with
  | Except.error e => (events, [], some e)
  | Except.ok okv =>
    if truthy okv then (events, [], none)
    else
      match strConcatPy "Failed to send Slack notification: " slackResp with
      | Except.ok line => (events, [line], none)
      | Except.error e => (events, [], some e)

/-- Lines 111-116: resolve the package file path, falling back to
`pathname`; `none` means the flow outputs the "No package file" line and
returns. -/
def resolvePkg (env : Env) : Option String :=
  if strTruthy env.package_file then some (env.package_file.getD "")
  else if strTruthy env.pathname then some (env.pathname.getD "")
  else none

/-- Argument list built for `makepkginfo` (lines 80-87). -/
def makepkginfoArgs (env : Env) (package_file : String) : List String :=
  ["/usr/local/munki/makepkginfo", package_file]
    ++ (if strTruthy env.pkginfo_name then
          ["--name", env.pkginfo_name.getD ""] else [])
    ++ (if strTruthy env.pkginfo_displayname then
          ["--displayname", env.pkginfo_displayname.getD ""] else [])
    ++ (if strTruthy env.pkginfo_destinationpath then
          ["--destinationpath", env.pkginfo_destinationpath.getD ""] else [])

/-- Lines 123-130: either generate the pkginfo file via `make_pkg_info`
(lines 79-99) and re-read it, or check and read the caller-supplied one.
`Sum.inl` is an early exit (return or crash); `Sum.inr` carries the
events and outputs so far, the pkginfo path, and the parsed record. -/
def pkginfoPhase (env : Env) (w : World) (package_file : String) :
    RunResult ⊕ (List Event × List String × String × Plist) :=
  match env.pkginfo_file with
  | none =>
    match w.generatedPlist with
    | none =>
      Sum.inl ⟨[Event.runMakepkginfo (makepkginfoArgs env package_file)],
        ["No pkginfo file specified.  Creating " ++ (package_file ++ ".plist")],
        Outcome.crashed PyErr.plistError⟩
    | some pl =>
      match sanitizePlist pl with
      | Except.error e =>
        Sum.inl ⟨[Event.runMakepkginfo (makepkginfoArgs env package_file)],
          ["No pkginfo file specified.  Creating " ++ (package_file ++ ".plist")],
          Outcome.crashed e⟩
      | Except.ok pl' =>
        Sum.inr ([Event.runMakepkginfo (makepkginfoArgs env package_file)],
          ["No pkginfo file specified.  Creating " ++ (package_file ++ ".plist")],
          package_file ++ ".plist", pl')
  | some pf =>
    if w.fileExists pf then
      match w.suppliedPlist with
      | none => Sum.inl ⟨[], [], Outcome.crashed PyErr.plistError⟩
      | some pl => Sum.inr ([], [], pf, pl)
    else
      Sum.inl ⟨[], ["pkginfo file specified but not found"], Outcome.returned⟩

/-- The curl command for the existence query (lines 136-142). -/
def existsCmd (env : Env) (u k n v : String) : List String :=
  [env.curl_path, "--header", "X-Api-Key: " ++ k,
   "--url", u ++ "/" ++ env.unit ++ "/packages/" ++ n ++ "/" ++ v]

/-- The curl command for the multipart upload (lines 159-165). -/
def uploadCmd (env : Env) (package_file pkginfo_file u k : String) :
    List String :=
  [env.curl_path, "--header", "X-Api-Key: " ++ k,
   "-F", "pkginfo_file=@" ++ pkginfo_file,
   "-F", "package_file=@" ++ package_file,
   "--url", u ++ "/" ++ env.unit ++ "/packages"]

/-- The data the bare `try` of lines 135-146 needs: a present `api_url`
and `api_key`, and string `name`/`version` values.  Any other
combination raises inside the `try` (a `TypeError` from concatenating
`None` or a non-string) and lands in the `except`. -/
def tryCurlCfg (env : Env) (nameV versionV : PVal) :
    Option (String × String × String × String) :=
  match env.api_url, env.api_key, nameV, versionV with
  | some u, some k, PVal.str n, PVal.str v => some (u, k, n, v)
  | _, _, _, _ => none

/-- Lines 131-155: read `name`/`version` from the pkginfo record, build
the existence-query command inside the bare `try` (any missing
configuration or non-string field lands in the `except` that prints
`configErrMsg` and returns), issue the query, and exit if the package
already exists.  `Sum.inr` continues to the upload with the events so
far and the checked `api_url`/`api_key`. -/
def existencePhase (env : Env) (w : World) (evs0 : List Event)
    (outs0 : List String) (plist : Plist) :
    RunResult ⊕ (List Event × List String × String × String) :=
  match dictGet plist "name" with
  | Except.error e => Sum.inl ⟨evs0, outs0, Outcome.crashed e⟩
  | Except.ok nameV =>
    match dictGet plist "version" with
    | Except.error e => Sum.inl ⟨evs0, outs0, Outcome.crashed e⟩
    | Except.ok versionV =>
      match tryCurlCfg env nameV versionV with
      | none => Sum.inl ⟨evs0, outs0 ++ [configErrMsg], Outcome.returned⟩
      | some (u, k, n, v) =>
        match jsonLoads w.existsBody with
        | Except.error e =>
          Sum.inl ⟨evs0 ++ [Event.httpGet (existsCmd env u k n v)],
            outs0, Outcome.crashed e⟩
        | Except.ok resp =>
          match getItem resp "exists" with
          | Except.error e =>
            Sum.inl ⟨evs0 ++ [Event.httpGet (existsCmd env u k n v)],
              outs0, Outcome.crashed e⟩
          | Except.ok ex =>
            if truthy ex then
              Sum.inl ⟨evs0 ++ [Event.httpGet (existsCmd env u k n v)],
                outs0 ++ [n ++ " version " ++ v
                  ++ " is already in munkiserver.  Quitting."],
                Outcome.returned⟩
            else
              Sum.inr (evs0 ++ [Event.httpGet (existsCmd env u k n v)],
                outs0, u, k)

/-- Lines 157-183: build and issue the upload, then branch on the
response `type`; on success emit the two output lines and post the
Slack notification. -/
def uploadPhase (env : Env) (w : World) (package_file pkginfo_file u k : String)
    (evs1 : List Event) (outs1 : List String) : RunResult :=
  match jsonLoads w.uploadBody with
  | Except.error e => ⟨evs1 ++ [Event.httpPost (uploadCmd env package_file pkginfo_file u k)], outs1, Outcome.crashed e⟩
  | Except.ok resp2 =>
    match getItem resp2 "type" with
    | Except.error e => ⟨evs1 ++ [Event.httpPost (uploadCmd env package_file pkginfo_file u k)], outs1, Outcome.crashed e⟩
    | Except.ok t =>
      if isSuccessType t then
        match getItem resp2 "message" with
        | Except.error e => ⟨evs1 ++ [Event.httpPost (uploadCmd env package_file pkginfo_file u k)], outs1, Outcome.crashed e⟩
        | Except.ok m =>
          match strConcatPy "Upload succeeded: " m with
          | Except.error e => ⟨evs1 ++ [Event.httpPost (uploadCmd env package_file pkginfo_file u k)], outs1, Outcome.crashed e⟩
          | Except.ok line1 =>
            match getItem resp2 "edit_url" with
            | Except.error e => ⟨evs1 ++ [Event.httpPost (uploadCmd env package_file pkginfo_file u k)], outs1 ++ [line1], Outcome.crashed e⟩
            | Except.ok eu =>
              match strConcatPy "URL: " eu with
              | Except.error e => ⟨evs1 ++ [Event.httpPost (uploadCmd env package_file pkginfo_file u k)], outs1 ++ [line1], Outcome.crashed e⟩
              | Except.ok line2 =>
                match getItem resp2 "edit_url" with
                | Except.error e =>
                  ⟨evs1 ++ [Event.httpPost (uploadCmd env package_file pkginfo_file u k)], outs1 ++ [line1, line2], Outcome.crashed e⟩
                | Except.ok eu2 =>
                  match strConcatPy slackMsgHead eu2 with
                  | Except.error e =>
                    ⟨evs1 ++ [Event.httpPost (uploadCmd env package_file pkginfo_file u k)], outs1 ++ [line1, line2], Outcome.crashed e⟩
                  | Except.ok smsg =>
                    let r := send_slack_notification w.slackResp smsg
                    ⟨evs1 ++ [Event.httpPost (uploadCmd env package_file pkginfo_file u k)] ++ r.1, outs1 ++ [line1, line2] ++ r.2.1,
                     match r.2.2 with
                     | none => Outcome.returned
                     | some e => Outcome.crashed e⟩
      else
        match getItem resp2 "message" with
        | Except.error e => ⟨evs1 ++ [Event.httpPost (uploadCmd env package_file pkginfo_file u k)], outs1, Outcome.crashed e⟩
        | Except.ok m =>
          match strConcatPy "Upload failed: " m with
          | Except.error e => ⟨evs1 ++ [Event.httpPost (uploadCmd env package_file pkginfo_file u k)], outs1, Outcome.crashed e⟩
          | Except.ok line =>
            ⟨evs1 ++ [Event.httpPost (uploadCmd env package_file pkginfo_file u k)], outs1 ++ [line], Outcome.returned⟩

/-- Lines 131-183: the existence check followed, when the package is
absent, by the upload. -/
def afterPkginfo (env : Env) (w : World) (package_file pkginfo_file : String)
    (evs0 : List Event) (outs0 : List String) (plist : Plist) : RunResult :=
  match existencePhase env w evs0 outs0 plist with
  | Sum.inl r => r
  | Sum.inr (evs1, outs1, u, k) =>
    uploadPhase env w package_file pkginfo_file u k evs1 outs1

/-- `main` (lines 109-183), as a function of the environment and the
external world. -/
def mainRun (env : Env) (w : World) : RunResult :=
  match resolvePkg env with
  | none => ⟨[], ["No package file pathname provided"], Outcome.returned⟩
  | some package_file =>
    if w.fileExists package_file then
      match pkginfoPhase env w package_file with
      | Sum.inl r => r
      | Sum.inr (evs0, outs0, pkginfo_file, plist) =>
        afterPkginfo env w package_file pkginfo_file evs0 outs0 plist
    else
      ⟨[], ["package_file path:  " ++ package_file, "Package file not found"],
       Outcome.returned⟩

/-- Whether an event is one of the two registry HTTP calls (the
existence query or the multipart upload). -/
def Event.isHttp : Event → Bool
  | Event.httpGet _ => true
  | Event.httpPost _ => true
  | _ => false

/-- Whether an event is the Slack notification call. -/
def Event.isSlack : Event → Bool
  | Event.slackCall _ => true
  | _ => false

/-- A concrete pkginfo record for the C9 witness. -/
def c9plIn : Plist :=
  [("name", PVal.str "My App"), ("installer_item_size", PVal.int 7),
   ("version", PVal.str "1.0 beta")]

/-- The record `sanitizePlist` persists for `c9plIn`. -/
def c9plOut : Plist :=
  [("name", PVal.str "My_App"), ("installer_item_size", PVal.int 7),
   ("version", PVal.str "1.0_beta")]

/-- A fully configured environment with a caller-supplied pkginfo file,
used by the concrete witnesses. -/
def envStd : Env :=
  { api_url := some "http://munki.example/api", api_key := some "sekrit",
    unit := "communication", package_file := some "/tmp/App.pkg",
    pathname := some "/tmp/App.pkg", pkginfo_file := some "/tmp/App.plist",
    pkginfo_name := none, pkginfo_displayname := none,
    pkginfo_destinationpath := none, curl_path := "/usr/bin/curl",
    slack_api_token := some "xoxb-token" }

/-- `envStd` with the registry URL unset. -/
def envNoUrl : Env := { envStd with api_url := none }

/-- A minimal supplied pkginfo record. -/
def plStd : Plist := [("name", PVal.str "App"), ("version", PVal.str "1.0")]

/-- World in which the registry says the package already exists. -/
def wExistsTrue : World :=
  { fileExists := fun _ => true, generatedPlist := none,
    suppliedPlist := some plStd,
    existsBody := some (JVal.jobj [("exists", JVal.jbool true)]),
    uploadBody := none,
    slackResp := JVal.jobj [("ok", JVal.jbool true)] }

/-- World in which the package is absent and the upload succeeds. -/
def wSuccess : World :=
  { fileExists := fun _ => true, generatedPlist := none,
    suppliedPlist := some plStd,
    existsBody := some (JVal.jobj [("exists", JVal.jbool false)]),
    uploadBody := some (JVal.jobj [("type", JVal.jstr "success"),
      ("message", JVal.jstr "ok"), ("edit_url", JVal.jstr "http://x")]),
    slackResp := JVal.jobj [("ok", JVal.jbool true)] }

/-- World in which the package is absent and the upload fails. -/
def wFail : World :=
  { fileExists := fun _ => true, generatedPlist := none,
    suppliedPlist := some plStd,
    existsBody := some (JVal.jobj [("exists", JVal.jbool false)]),
    uploadBody := some (JVal.jobj [("type", JVal.jstr "error"),
      ("message", JVal.jstr "bad")]),
    slackResp := JVal.jobj [("ok", JVal.jbool true)] }

/-- World in which the existence response body is not parseable JSON. -/
def wBadJson : World :=
  { fileExists := fun _ => true, generatedPlist := none,
    suppliedPlist := some plStd, existsBody := none, uploadBody := none,
    slackResp := JVal.jobj [("ok", JVal.jbool true)] }

/-- Supplied pkginfo whose fields contain characters outside the
sanitization class. -/
def plRaw : Plist :=
  [("name", PVal.str "My App!"), ("version", PVal.str "1.0 beta")]

/-- World with the raw supplied pkginfo. -/
def wRaw : World :=
  { fileExists := fun _ => true, generatedPlist := none,
    suppliedPlist := some plRaw,
    existsBody := some (JVal.jobj [("exists", JVal.jbool true)]),
    uploadBody := none,
    slackResp := JVal.jobj [("ok", JVal.jbool true)] }

/-! ### Properties of the sanitization substitution -/

theorem subAux_all (l : List Char) :
    ∀ b, ((subAux b l).all fun c => goodChar c || c == '_') = true := by
  induction l with
  | nil => intro b; rfl
  | cons c cs ih =>
    intro b
    by_cases h : goodChar c
    · simp [subAux, h, ih]
    · cases b <;> simp [subAux, h, ih]

theorem subAux_subAux (l : List Char) :
    ∀ b, subAux b (subAux b l) = subAux b l := by
  induction l with
  | nil => intro b; rfl
  | cons c cs ih =>
    intro b
    by_cases h : goodChar c
    · simp [subAux, h, ih]
    · cases b
      · simp [subAux, h, ih, show goodChar '_' = false from rfl]
      · simp [subAux, h, ih]

/-- C5: every character of the sanitized output is in the class
`[A-Za-z0-9.-]` or is the replacement character `_`. -/
theorem c5_sanitized_in_class (s : String) :
    ((reSub s).data.all fun c => goodChar c || c == '_') = true := by
  simpa [reSub] using subAux_all s.data false

/-- C6: the character-class substitution of lines 97-98 is idempotent. -/
theorem c6_sanitize_idempotent (s : String) : reSub (reSub s) = reSub s :=
  congrArg String.mk (subAux_subAux s.data false)

/-! ### The Slack notification bug (C7) -/

/-- C7: the claim says a notification failure (`ok` false) is logged and
swallowed.  In the code, the logging line concatenates a `str` with the
response dict (`"Failed to send Slack notification: " + result`), which
raises `TypeError`: nothing is logged and the exception escapes to the
caller. -/
theorem c7_notify_failure_raises :
    send_slack_notification (JVal.jobj [("ok", JVal.jbool false)]) "msg"
      = ([Event.slackCall "msg"], [], some PyErr.typeError) := rfl

/-! ### Frame property of `sanitizePlist` (C9) -/

theorem lookup_dictSet_ne (k k' : String) (v : PVal) (h : k ≠ k') :
    ∀ d : Plist, List.lookup k (dictSet d k' v) = List.lookup k d := by
  intro d
  induction d with
  | nil =>
    have hb : (k == k') = false := beq_eq_false_iff_ne.mpr h
    simp [dictSet, List.lookup, hb]
  | cons p rest ih =>
    obtain ⟨k₀, v₀⟩ := p
    by_cases hk : k₀ = k'
    · subst hk
      have hb : (k == k₀) = false := beq_eq_false_iff_ne.mpr h
      simp [dictSet, List.lookup, hb]
    · simp [dictSet, hk, List.lookup, ih]

/-- C9: sanitization modifies only `name` and `version`: every other
field of the persisted record equals the parsed one. -/
theorem c9_sanitize_frame (plist plist' : Plist) (k : String)
    (h : sanitizePlist plist = Except.ok plist')
    (hk1 : k ≠ "name") (hk2 : k ≠ "version") :
    List.lookup k plist' = List.lookup k plist := by
  unfold sanitizePlist at h
  cases hn : dictGet plist "name" with
  | error e => simp only [hn] at h; exact Except.noConfusion h
  | ok nv =>
    simp only [hn] at h
    cases hns : pySub nv with
    | error e => simp only [hns] at h; exact Except.noConfusion h
    | ok nv' =>
      simp only [hns] at h
      cases hv : dictGet (dictSet plist "name" nv') "version" with
      | error e => simp only [hv] at h; exact Except.noConfusion h
      | ok vv =>
        simp only [hv] at h
        cases hvs : pySub vv with
        | error e => simp only [hvs] at h; exact Except.noConfusion h
        | ok vv' =>
          simp only [hvs] at h
          injection h with h2
          subst h2
          rw [lookup_dictSet_ne k "version" vv' hk2,
              lookup_dictSet_ne k "name" nv' hk1]

/-- Witness for C9 at a concrete record: the `installer_item_size` field
survives sanitization unchanged. -/
theorem c9_sanitize_frame_witness :
    List.lookup "installer_item_size" c9plOut
      = List.lookup "installer_item_size" c9plIn :=
  c9_sanitize_frame c9plIn c9plOut "installer_item_size" rfl
    (by decide) (by decide)

/-! ### Trace lemmas for the phases of `main` -/

theorem send_slack_events (sr : JVal) (m : String) :
    (send_slack_notification sr m).1 = [Event.slackCall m] := by
  unfold send_slack_notification
  cases h : getItem sr "ok" with
  | error e => rfl
  | ok okv =>
    by_cases ht : truthy okv = true
    · simp [ht]
    · cases hc : strConcatPy "Failed to send Slack notification: " sr with
      | ok line => simp [ht, hc]
      | error e => simp [ht, hc]

theorem pkginfoPhase_inl_events (env : Env) (w : World) (pf : String)
    (r : RunResult) (h : pkginfoPhase env w pf = Sum.inl r) :
    r.events = [] ∨ r.events = [Event.runMakepkginfo (makepkginfoArgs env pf)] := by
  unfold pkginfoPhase at h
  repeat' split at h
  all_goals
    first
    | exact Sum.noConfusion h
    | (injection h with h'
       subst h'
       simp)

theorem pkginfoPhase_inr_evs0 (env : Env) (w : World) (pf : String)
    (evs0 : List Event) (outs0 : List String) (pif : String) (pl : Plist)
    (h : pkginfoPhase env w pf = Sum.inr (evs0, outs0, pif, pl)) :
    evs0 = [] ∨ evs0 = [Event.runMakepkginfo (makepkginfoArgs env pf)] := by
  unfold pkginfoPhase at h
  repeat' split at h
  all_goals
    first
    | exact Sum.noConfusion h
    | (simp only [Sum.inr.injEq, Prod.mk.injEq] at h
       obtain ⟨h1, -, -, -⟩ := h
       subst h1
       simp)

theorem tryCurlCfg_some (env : Env) (a b : PVal) (u k n v : String)
    (h : tryCurlCfg env a b = some (u, k, n, v)) :
    env.api_url = some u ∧ env.api_key = some k
      ∧ a = PVal.str n ∧ b = PVal.str v := by
  unfold tryCurlCfg at h
  cases hu : env.api_url <;> cases hk : env.api_key <;> cases a <;> cases b <;>
    simp only [hu, hk] at h <;> simp_all

theorem existencePhase_inr (env : Env) (w : World) (evs0 : List Event)
    (outs0 : List String) (pl : Plist) (evs1 : List Event)
    (outs1 : List String) (u k : String)
    (h : existencePhase env w evs0 outs0 pl = Sum.inr (evs1, outs1, u, k)) :
    env.api_url = some u ∧ env.api_key = some k ∧ outs1 = outs0 ∧
    ∃ n v, dictGet pl "name" = Except.ok (PVal.str n)
      ∧ dictGet pl "version" = Except.ok (PVal.str v)
      ∧ evs1 = evs0 ++ [Event.httpGet (existsCmd env u k n v)]
      ∧ ∃ resp ex, jsonLoads w.existsBody = Except.ok resp
        ∧ getItem resp "exists" = Except.ok ex ∧ truthy ex = false := by
  unfold existencePhase at h
  cases hn : dictGet pl "name" with
  | error e => simp only [hn] at h; exact Sum.noConfusion h
  | ok nameV =>
    simp only [hn] at h
    cases hv : dictGet pl "version" with
    | error e => simp only [hv] at h; exact Sum.noConfusion h
    | ok versionV =>
      simp only [hv] at h
      cases hc : tryCurlCfg env nameV versionV with
      | none => simp only [hc] at h; exact Sum.noConfusion h
      | some cfg =>
        obtain ⟨u', k', n', v'⟩ := cfg
        simp only [hc] at h
        obtain ⟨hu, hk, hnn, hvv⟩ := tryCurlCfg_some env nameV versionV u' k' n' v' hc
        subst hnn; subst hvv
        cases hj : jsonLoads w.existsBody with
        | error e => simp only [hj] at h; exact Sum.noConfusion h
        | ok resp =>
          simp only [hj] at h
          cases hex : getItem resp "exists" with
          | error e => simp only [hex] at h; exact Sum.noConfusion h
          | ok ex =>
            simp only [hex] at h
            cases htr : truthy ex with
            | true =>
              rw [if_pos htr] at h
              exact Sum.noConfusion h
            | false =>
              rw [if_neg (by simp [htr])] at h
              simp only [Sum.inr.injEq, Prod.mk.injEq] at h
              obtain ⟨he, ho, hu2, hk2⟩ := h
              subst he; subst ho; subst hu2; subst hk2
              exact ⟨hu, hk, rfl, n', v', rfl, rfl, rfl, resp, ex, rfl, hex, htr⟩

theorem existencePhase_inl_events (env : Env) (w : World) (evs0 : List Event)
    (outs0 : List String) (pl : Plist) (r : RunResult)
    (h : existencePhase env w evs0 outs0 pl = Sum.inl r) :
    r.events = evs0 ∨ ∃ c, r.events = evs0 ++ [Event.httpGet c] := by
  unfold existencePhase at h
  repeat' split at h
  all_goals first
    | exact Sum.noConfusion h
    | (injection h with h'
       subst h'
       first
       | exact Or.inr ⟨_, rfl⟩
       | simp)

theorem existencePhase_inl_exists_false (env : Env) (w : World)
    (evs0 : List Event) (outs0 : List String) (pl : Plist) (r : RunResult)
    (v : JVal)
    (hwe : w.existsBody = some v)
    (hex : getItem v "exists" = Except.ok (JVal.jbool false))
    (h : existencePhase env w evs0 outs0 pl = Sum.inl r) :
    r.events = evs0 := by
  unfold existencePhase at h
  repeat' split at h
  all_goals first
    | exact Sum.noConfusion h
    | (injection h with h'
       subst h'
       first
       | rfl
       | simp_all [jsonLoads, truthy])

theorem uploadPhase_events_shape (env : Env) (w : World)
    (package_file pkginfo_file u k : String) (evs1 : List Event)
    (outs1 : List String) :
    evs1 ++ [Event.httpPost (uploadCmd env package_file pkginfo_file u k)]
      <+: (uploadPhase env w package_file pkginfo_file u k evs1 outs1).events := by
  unfold uploadPhase
  repeat' split
  all_goals first
    | exact List.prefix_rfl
    | exact List.prefix_append _ _

theorem uploadPhase_success (env : Env) (w : World)
    (package_file pkginfo_file u k : String) (evs1 : List Event)
    (outs1 : List String) (vu : JVal) (m url : String)
    (hwu : w.uploadBody = some vu)
    (ht : getItem vu "type" = Except.ok (JVal.jstr "success"))
    (hm : getItem vu "message" = Except.ok (JVal.jstr m))
    (hurl : getItem vu "edit_url" = Except.ok (JVal.jstr url)) :
    (uploadPhase env w package_file pkginfo_file u k evs1 outs1).events
      = evs1 ++ [Event.httpPost (uploadCmd env package_file pkginfo_file u k),
                 Event.slackCall (slackMsgHead ++ url)] := by
  unfold uploadPhase
  simp [hwu, jsonLoads, ht, hm, hurl, isSuccessType, strConcatPy, send_slack_events]

theorem uploadPhase_failure (env : Env) (w : World)
    (package_file pkginfo_file u k : String) (evs1 : List Event)
    (outs1 : List String) (vu t : JVal) (m : String)
    (hwu : w.uploadBody = some vu)
    (ht : getItem vu "type" = Except.ok t)
    (hts : isSuccessType t = false)
    (hm : getItem vu "message" = Except.ok (JVal.jstr m)) :
    uploadPhase env w package_file pkginfo_file u k evs1 outs1
      = ⟨evs1 ++ [Event.httpPost (uploadCmd env package_file pkginfo_file u k)],
         outs1 ++ ["Upload failed: " ++ m], Outcome.returned⟩ := by
  unfold uploadPhase
  simp [hwu, jsonLoads, ht, hts, hm, strConcatPy]

theorem mainRun_eq (env : Env) (w : World) :
    (resolvePkg env = none
      ∧ mainRun env w
          = ⟨[], ["No package file pathname provided"], Outcome.returned⟩)
  ∨ (∃ pf, resolvePkg env = some pf ∧ w.fileExists pf = false
      ∧ mainRun env w
          = ⟨[], ["package_file path:  " ++ pf, "Package file not found"],
             Outcome.returned⟩)
  ∨ (∃ pf r, resolvePkg env = some pf ∧ w.fileExists pf = true
      ∧ pkginfoPhase env w pf = Sum.inl r ∧ mainRun env w = r)
  ∨ (∃ pf evs0 outs0 pif pl, resolvePkg env = some pf ∧ w.fileExists pf = true
      ∧ pkginfoPhase env w pf = Sum.inr (evs0, outs0, pif, pl)
      ∧ mainRun env w = afterPkginfo env w pf pif evs0 outs0 pl) := by
  unfold mainRun
  split
  · next hr => exact Or.inl ⟨hr, rfl⟩
  · next pf hr =>
    by_cases hfe : w.fileExists pf = true
    · rw [if_pos hfe]
      split
      · next r hpp =>
        exact Or.inr (Or.inr (Or.inl ⟨pf, r, hr, hfe, hpp, rfl⟩))
      · next evs0 outs0 pif pl hpp =>
        exact Or.inr (Or.inr (Or.inr ⟨pf, evs0, outs0, pif, pl, hr, hfe, hpp, rfl⟩))
    · rw [if_neg hfe]
      exact Or.inr (Or.inl ⟨pf, hr, by simpa using hfe, rfl⟩)

theorem afterPkginfo_eq (env : Env) (w : World)
    (package_file pkginfo_file : String) (evs0 : List Event)
    (outs0 : List String) (plist : Plist) :
    (∃ r, existencePhase env w evs0 outs0 plist = Sum.inl r
        ∧ afterPkginfo env w package_file pkginfo_file evs0 outs0 plist = r)
  ∨ (∃ evs1 outs1 u k,
        existencePhase env w evs0 outs0 plist = Sum.inr (evs1, outs1, u, k)
        ∧ afterPkginfo env w package_file pkginfo_file evs0 outs0 plist
            = uploadPhase env w package_file pkginfo_file u k evs1 outs1) := by
  unfold afterPkginfo
  split
  · next r heq => exact Or.inl ⟨r, heq, rfl⟩
  · next evs1 outs1 u k heq => exact Or.inr ⟨evs1, outs1, u, k, heq, rfl⟩

theorem mainRun_inr (env : Env) (w : World) (pf : String) (evs0 : List Event)
    (outs0 : List String) (pif : String) (pl : Plist)
    (hr : resolvePkg env = some pf) (hfe : w.fileExists pf = true)
    (hpp : pkginfoPhase env w pf = Sum.inr (evs0, outs0, pif, pl)) :
    mainRun env w = afterPkginfo env w pf pif evs0 outs0 pl := by
  unfold mainRun
  simp [hr, hfe, hpp]

theorem tryCurlCfg_none (env : Env) (a b : PVal)
    (h : env.api_url = none ∨ env.api_key = none) :
    tryCurlCfg env a b = none := by
  cases hu : env.api_url <;> cases hk : env.api_key <;> cases a <;> cases b <;>
    simp_all [tryCurlCfg]

theorem existencePhase_config_err (env : Env) (w : World) (evs0 : List Event)
    (outs0 : List String) (pl : Plist) (a b : PVal)
    (hn : dictGet pl "name" = Except.ok a)
    (hv : dictGet pl "version" = Except.ok b)
    (h : env.api_url = none ∨ env.api_key = none) :
    existencePhase env w evs0 outs0 pl
      = Sum.inl ⟨evs0, outs0 ++ [configErrMsg], Outcome.returned⟩ := by
  unfold existencePhase
  simp only [hn, hv, tryCurlCfg_none env a b h]

theorem existencePhase_config_missing (env : Env) (w : World)
    (evs0 : List Event) (outs0 : List String) (pl : Plist)
    (h : env.api_url = none ∨ env.api_key = none) :
    (∃ e, existencePhase env w evs0 outs0 pl
        = Sum.inl ⟨evs0, outs0, Outcome.crashed e⟩)
  ∨ existencePhase env w evs0 outs0 pl
      = Sum.inl ⟨evs0, outs0 ++ [configErrMsg], Outcome.returned⟩ := by
  cases hn : dictGet pl "name" with
  | error e =>
    refine Or.inl ⟨e, ?_⟩
    unfold existencePhase
    simp only [hn]
  | ok a =>
    cases hv : dictGet pl "version" with
    | error e =>
      refine Or.inl ⟨e, ?_⟩
      unfold existencePhase
      simp only [hn, hv]
    | ok b =>
      exact Or.inr (existencePhase_config_err env w evs0 outs0 pl a b hn hv h)

/-! ### The claims about the orchestration flow -/

/-- C1: for every run in which the registry existence query returns a
JSON body whose `exists` field is `true`, the flow terminates without
ever performing the multipart upload POST. -/
theorem c1_exists_true_no_upload (env : Env) (w : World) (v : JVal)
    (hwe : w.existsBody = some v)
    (hex : getItem v "exists" = Except.ok (JVal.jbool true)) :
    ∀ c, Event.httpPost c ∉ (mainRun env w).events := by
  intro c
  rcases mainRun_eq env w with ⟨-, hm⟩ | ⟨pf, -, -, hm⟩ |
    ⟨pf, r, -, -, hpp, hm⟩ | ⟨pf, evs0, outs0, pif, pl, -, -, hpp, hm⟩
  · rw [hm]; simp
  · rw [hm]; simp
  · rw [hm]
    rcases pkginfoPhase_inl_events env w pf r hpp with h | h <;> simp [h]
  · rw [hm]
    rcases afterPkginfo_eq env w pf pif evs0 outs0 pl with
      ⟨r, hep, ha⟩ | ⟨evs1, outs1, u, k, hep, ha⟩
    · rw [ha]
      rcases existencePhase_inl_events env w evs0 outs0 pl r hep with h | ⟨c2, h⟩ <;>
        rcases pkginfoPhase_inr_evs0 env w pf evs0 outs0 pif pl hpp with h0 | h0 <;>
        simp [h, h0]
    · exfalso
      obtain ⟨-, -, -, n, vv, -, -, -, resp, ex, hj, hex2, htr⟩ :=
        existencePhase_inr env w evs0 outs0 pl evs1 outs1 u k hep
      rw [hwe] at hj
      simp only [jsonLoads] at hj
      injection hj with hj'
      subst hj'
      rw [hex] at hex2
      injection hex2 with hx
      subst hx
      simp [truthy] at htr

/-- Witness for C1 at a concrete run in which the registry says the
package exists. -/
theorem c1_exists_true_no_upload_witness :
    Event.httpPost ["curl"] ∉ (mainRun envStd wExistsTrue).events :=
  c1_exists_true_no_upload envStd wExistsTrue
    (JVal.jobj [("exists", JVal.jbool true)]) rfl rfl ["curl"]

/-- C2: for every run that performs the existence query, when the
registry replies `{"exists": false}` and the upload replies
`{"type": "success", "message": m, "edit_url": url}`, the flow issues
exactly one Slack notification call and its message contains `url`. -/
theorem c2_success_single_notification (env : Env) (w : World) (ev vu : JVal)
    (m url : String)
    (hq : ∃ c, Event.httpGet c ∈ (mainRun env w).events)
    (hwe : w.existsBody = some ev)
    (hex : getItem ev "exists" = Except.ok (JVal.jbool false))
    (hwu : w.uploadBody = some vu)
    (ht : getItem vu "type" = Except.ok (JVal.jstr "success"))
    (hm : getItem vu "message" = Except.ok (JVal.jstr m))
    (hurl : getItem vu "edit_url" = Except.ok (JVal.jstr url)) :
    ((mainRun env w).events.filter Event.isSlack).length = 1
    ∧ ∀ msg, Event.slackCall msg ∈ (mainRun env w).events
        → ∃ p q, msg = p ++ url ++ q := by
  obtain ⟨c0, hc0⟩ := hq
  rcases mainRun_eq env w with ⟨-, hm'⟩ | ⟨pf, -, -, hm'⟩ |
    ⟨pf, r, -, -, hpp, hm'⟩ | ⟨pf, evs0, outs0, pif, pl, -, -, hpp, hm'⟩
  · rw [hm'] at hc0; simp at hc0
  · rw [hm'] at hc0; simp at hc0
  · rw [hm'] at hc0
    rcases pkginfoPhase_inl_events env w pf r hpp with h | h <;> simp [h] at hc0
  · rcases afterPkginfo_eq env w pf pif evs0 outs0 pl with
      ⟨r, hep, ha⟩ | ⟨evs1, outs1, u, k, hep, ha⟩
    · exfalso
      have hre := existencePhase_inl_exists_false env w evs0 outs0 pl r ev hwe hex hep
      rw [hm', ha, hre] at hc0
      rcases pkginfoPhase_inr_evs0 env w pf evs0 outs0 pif pl hpp with h0 | h0 <;>
        simp [h0] at hc0
    · have hev := uploadPhase_success env w pf pif u k evs1 outs1 vu m url hwu ht hm hurl
      obtain ⟨-, -, -, n, vv, -, -, hevs1, -⟩ :=
        existencePhase_inr env w evs0 outs0 pl evs1 outs1 u k hep
      rw [hm', ha]
      subst hevs1
      rcases pkginfoPhase_inr_evs0 env w pf evs0 outs0 pif pl hpp with h0 | h0 <;>
        subst h0 <;>
        refine ⟨by rw [hev]; simp [Event.isSlack], ?_⟩ <;>
        · intro msg hmsg
          rw [hev] at hmsg
          simp at hmsg
          subst hmsg
          exact ⟨slackMsgHead, "", (String.append_empty _).symm⟩

/-- Witness for C2 at a concrete successful run. -/
theorem c2_success_single_notification_witness :
    ((mainRun envStd wSuccess).events.filter Event.isSlack).length = 1 :=
  (c2_success_single_notification envStd wSuccess
    (JVal.jobj [("exists", JVal.jbool false)])
    (JVal.jobj [("type", JVal.jstr "success"), ("message", JVal.jstr "ok"),
      ("edit_url", JVal.jstr "http://x")])
    "ok" "http://x"
    ⟨existsCmd envStd "http://munki.example/api" "sekrit" "App" "1.0",
      by decide⟩
    rfl rfl rfl rfl rfl rfl).1

/-- C3: when `api_url` or `api_key` is missing, the run performs no
registry network call at all, and whenever it reaches the registry step
it reports the configuration diagnostic and returns normally. -/
theorem c3_missing_config_no_network (env : Env) (w : World)
    (h : env.api_url = none ∨ env.api_key = none) :
    (∀ c, Event.httpGet c ∉ (mainRun env w).events
        ∧ Event.httpPost c ∉ (mainRun env w).events)
    ∧ (∀ pf evs0 outs0 pif pl a b,
        resolvePkg env = some pf → w.fileExists pf = true →
        pkginfoPhase env w pf = Sum.inr (evs0, outs0, pif, pl) →
        dictGet pl "name" = Except.ok a →
        dictGet pl "version" = Except.ok b →
        configErrMsg ∈ (mainRun env w).outputs
          ∧ (mainRun env w).outcome = Outcome.returned) := by
  constructor
  · intro c
    rcases mainRun_eq env w with ⟨-, hm⟩ | ⟨pf, -, -, hm⟩ |
      ⟨pf, r, -, -, hpp, hm⟩ | ⟨pf, evs0, outs0, pif, pl, -, -, hpp, hm⟩
    · rw [hm]; simp
    · rw [hm]; simp
    · rw [hm]
      rcases pkginfoPhase_inl_events env w pf r hpp with h1 | h1 <;> simp [h1]
    · rw [hm]
      rcases afterPkginfo_eq env w pf pif evs0 outs0 pl with
        ⟨r, hep, ha⟩ | ⟨evs1, outs1, u, k, hep, ha⟩
      · rw [ha]
        have hevents : r.events = evs0 := by
          rcases existencePhase_config_missing env w evs0 outs0 pl h with
            ⟨e, hc⟩ | hc <;>
            rw [hc] at hep <;> injection hep with hep' <;> rw [← hep']
        rw [hevents]
        rcases pkginfoPhase_inr_evs0 env w pf evs0 outs0 pif pl hpp with h0 | h0 <;>
          simp [h0]
      · exfalso
        rcases existencePhase_config_missing env w evs0 outs0 pl h with
          ⟨e, hc⟩ | hc <;>
          rw [hc] at hep <;> exact Sum.noConfusion hep
  · intro pf evs0 outs0 pif pl a b hr hfe hpp ha hb
    have hm := mainRun_inr env w pf evs0 outs0 pif pl hr hfe hpp
    have hcfg := existencePhase_config_err env w evs0 outs0 pl a b ha hb h
    rw [hm]
    unfold afterPkginfo
    simp [hcfg]

/-- Witness for C3 at a concrete run with `api_url` unset. -/
theorem c3_missing_config_no_network_witness :
    Event.httpGet ["curl"] ∉ (mainRun envNoUrl wSuccess).events
    ∧ configErrMsg ∈ (mainRun envNoUrl wSuccess).outputs :=
  by
  constructor
  · exact ((c3_missing_config_no_network envNoUrl wSuccess (Or.inl rfl)).1 ["curl"]).1
  · exact ((c3_missing_config_no_network envNoUrl wSuccess (Or.inl rfl)).2
      "/tmp/App.pkg" [] [] "/tmp/App.plist" plStd
      (PVal.str "App") (PVal.str "1.0") rfl rfl rfl rfl rfl).1

/-- C4: for every run that performs the upload, when the upload response
`type` is not `"success"`, the flow reports `Upload failed: <message>`
and issues no Slack notification. -/
theorem c4_upload_failure_no_notification (env : Env) (w : World)
    (vu t : JVal) (m : String)
    (hpost : ∃ c, Event.httpPost c ∈ (mainRun env w).events)
    (hwu : w.uploadBody = some vu)
    (ht : getItem vu "type" = Except.ok t)
    (hts : isSuccessType t = false)
    (hm : getItem vu "message" = Except.ok (JVal.jstr m)) :
    ("Upload failed: " ++ m) ∈ (mainRun env w).outputs
    ∧ ∀ msg, Event.slackCall msg ∉ (mainRun env w).events := by
  obtain ⟨c0, hc0⟩ := hpost
  rcases mainRun_eq env w with ⟨-, hm'⟩ | ⟨pf, -, -, hm'⟩ |
    ⟨pf, r, -, -, hpp, hm'⟩ | ⟨pf, evs0, outs0, pif, pl, -, -, hpp, hm'⟩
  · rw [hm'] at hc0; simp at hc0
  · rw [hm'] at hc0; simp at hc0
  · rw [hm'] at hc0
    rcases pkginfoPhase_inl_events env w pf r hpp with h | h <;> simp [h] at hc0
  · rcases afterPkginfo_eq env w pf pif evs0 outs0 pl with
      ⟨r, hep, ha⟩ | ⟨evs1, outs1, u, k, hep, ha⟩
    · exfalso
      rw [hm', ha] at hc0
      rcases existencePhase_inl_events env w evs0 outs0 pl r hep with h | ⟨c2, h⟩ <;>
        rcases pkginfoPhase_inr_evs0 env w pf evs0 outs0 pif pl hpp with h0 | h0 <;>
        simp [h, h0] at hc0
    · have hfail := uploadPhase_failure env w pf pif u k evs1 outs1 vu t m hwu ht hts hm
      obtain ⟨-, -, -, n, vv, -, -, hevs1, -⟩ :=
        existencePhase_inr env w evs0 outs0 pl evs1 outs1 u k hep
      rw [hm', ha, hfail]
      subst hevs1
      rcases pkginfoPhase_inr_evs0 env w pf evs0 outs0 pif pl hpp with h0 | h0 <;>
        subst h0 <;>
        exact ⟨by simp, by intro msg; simp⟩

/-- Witness for C4 at a concrete failed upload. -/
theorem c4_upload_failure_no_notification_witness :
    ("Upload failed: " ++ "bad") ∈ (mainRun envStd wFail).outputs :=
  (c4_upload_failure_no_notification envStd wFail
    (JVal.jobj [("type", JVal.jstr "error"), ("message", JVal.jstr "bad")])
    (JVal.jstr "error") "bad"
    ⟨uploadCmd envStd "/tmp/App.pkg" "/tmp/App.plist"
        "http://munki.example/api" "sekrit", by decide⟩
    rfl rfl rfl rfl).1

/-- C8 (amended): if the endpoint cannot be constructed (missing
`api_url` or `api_key`) the existence operation reports the
configuration diagnostic and returns without any network call; an
unparseable JSON existence response instead raises an uncaught JSON
decode error (a crash), not a graceful termination. -/
theorem c8_registry_failure_modes (env : Env) (w : World) (evs0 : List Event)
    (outs0 : List String) (pl : Plist) :
    ((env.api_url = none ∨ env.api_key = none) →
      ∀ a b, dictGet pl "name" = Except.ok a →
        dictGet pl "version" = Except.ok b →
        existencePhase env w evs0 outs0 pl
          = Sum.inl ⟨evs0, outs0 ++ [configErrMsg], Outcome.returned⟩)
  ∧ (∀ u k n v, env.api_url = some u → env.api_key = some k →
      dictGet pl "name" = Except.ok (PVal.str n) →
      dictGet pl "version" = Except.ok (PVal.str v) →
      w.existsBody = none →
      existencePhase env w evs0 outs0 pl
        = Sum.inl ⟨evs0 ++ [Event.httpGet (existsCmd env u k n v)], outs0,
            Outcome.crashed PyErr.jsonError⟩) := by
  constructor
  · intro h a b ha hb
    exact existencePhase_config_err env w evs0 outs0 pl a b ha hb h
  · intro u k n v hu hk hn hv hwe
    have hc : tryCurlCfg env (PVal.str n) (PVal.str v) = some (u, k, n, v) := by
      unfold tryCurlCfg
      rw [hu, hk]
    unfold existencePhase
    simp only [hn, hv, hc, hwe, jsonLoads]

/-- Witness for C8: both failure modes at concrete data. -/
theorem c8_registry_failure_modes_witness :
    existencePhase envNoUrl wSuccess [] [] plStd
      = Sum.inl ⟨[], [] ++ [configErrMsg], Outcome.returned⟩
    ∧ existencePhase envStd wBadJson [] [] plStd
      = Sum.inl ⟨[] ++ [Event.httpGet (existsCmd envStd
          "http://munki.example/api" "sekrit" "App" "1.0")], [],
          Outcome.crashed PyErr.jsonError⟩ :=
  ⟨(c8_registry_failure_modes envNoUrl wSuccess [] [] plStd).1 (Or.inl rfl)
      (PVal.str "App") (PVal.str "1.0") rfl rfl,
   (c8_registry_failure_modes envStd wBadJson [] [] plStd).2
      "http://munki.example/api" "sekrit" "App" "1.0" rfl rfl rfl rfl rfl⟩

/-- C8 counterexample to the claim as stated: with full configuration
and an unparseable existence response body, the query is performed and
the flow crashes with an unhandled JSON decode error — no diagnostic is
reported and there is no graceful early termination. -/
theorem c8_unparseable_json_crashes :
    (mainRun envStd wBadJson).outcome = Outcome.crashed PyErr.jsonError
    ∧ (mainRun envStd wBadJson).outputs = []
    ∧ (mainRun envStd wBadJson).events
        = [Event.httpGet (existsCmd envStd "http://munki.example/api"
            "sekrit" "App" "1.0")] :=
  ⟨rfl, rfl, rfl⟩

/-- C10: when the caller supplies a pkginfo file, its `name` and
`version` values are used verbatim — no sanitization is applied — in
the registry existence-query URL: the first event of the run is the GET
built by concatenating the raw strings. -/
theorem c10_supplied_pkginfo_unsanitized (env : Env) (w : World)
    (pf pif : String) (pl : Plist) (n v u k : String)
    (hr : resolvePkg env = some pf) (hfe : w.fileExists pf = true)
    (hpif : env.pkginfo_file = some pif) (hpe : w.fileExists pif = true)
    (hsup : w.suppliedPlist = some pl)
    (hn : dictGet pl "name" = Except.ok (PVal.str n))
    (hv : dictGet pl "version" = Except.ok (PVal.str v))
    (hu : env.api_url = some u) (hk : env.api_key = some k) :
    ∃ rest, (mainRun env w).events
      = Event.httpGet (existsCmd env u k n v) :: rest := by
  have hpp : pkginfoPhase env w pf = Sum.inr ([], [], pif, pl) := by
    unfold pkginfoPhase
    simp [hpif, hpe, hsup]
  have hc : tryCurlCfg env (PVal.str n) (PVal.str v) = some (u, k, n, v) := by
    unfold tryCurlCfg
    rw [hu, hk]
  rw [mainRun_inr env w pf [] [] pif pl hr hfe hpp]
  cases hj : jsonLoads w.existsBody with
  | error e =>
    have hEP : existencePhase env w [] [] pl
        = Sum.inl ⟨[] ++ [Event.httpGet (existsCmd env u k n v)], [],
            Outcome.crashed e⟩ := by
      unfold existencePhase
      simp only [hn, hv, hc, hj]
    unfold afterPkginfo
    simp only [hEP]
    exact ⟨[], rfl⟩
  | ok resp =>
    cases hex : getItem resp "exists" with
    | error e =>
      have hEP : existencePhase env w [] [] pl
          = Sum.inl ⟨[] ++ [Event.httpGet (existsCmd env u k n v)], [],
              Outcome.crashed e⟩ := by
        unfold existencePhase
        simp only [hn, hv, hc, hj, hex]
      unfold afterPkginfo
      simp only [hEP]
      exact ⟨[], rfl⟩
    | ok ex =>
      cases htr : truthy ex with
      | true =>
        have hEP : existencePhase env w [] [] pl
            = Sum.inl ⟨[] ++ [Event.httpGet (existsCmd env u k n v)],
                [] ++ [n ++ " version " ++ v
                  ++ " is already in munkiserver.  Quitting."],
                Outcome.returned⟩ := by
          unfold existencePhase
          simp [hn, hv, hc, hj, hex, htr]
        unfold afterPkginfo
        simp only [hEP]
        exact ⟨[], rfl⟩
      | false =>
        have hEP : existencePhase env w [] [] pl
            = Sum.inr ([] ++ [Event.httpGet (existsCmd env u k n v)],
                [], u, k) := by
          unfold existencePhase
          simp [hn, hv, hc, hj, hex, htr]
        unfold afterPkginfo
        simp only [hEP]
        obtain ⟨tail, hsh⟩ := uploadPhase_events_shape env w pf pif u k
          ([] ++ [Event.httpGet (existsCmd env u k n v)]) []
        exact ⟨Event.httpPost (uploadCmd env pf pif u k) :: tail,
          by rw [← hsh]; simp⟩

/-- Witness for C10: the raw `name` and `version`, with characters
outside the sanitization class, appear verbatim in the issued GET. -/
theorem c10_supplied_pkginfo_unsanitized_witness :
    Event.httpGet (existsCmd envStd "http://munki.example/api" "sekrit"
        "My App!" "1.0 beta") ∈ (mainRun envStd wRaw).events := by
  obtain ⟨rest, h⟩ := c10_supplied_pkginfo_unsanitized envStd wRaw
    "/tmp/App.pkg" "/tmp/App.plist" plRaw "My App!" "1.0 beta"
    "http://munki.example/api" "sekrit" rfl rfl rfl rfl rfl rfl rfl rfl rfl
  rw [h]
  exact List.mem_cons_self _ _

end MunkiServerUploader
